import Mathlib

/-!
# visionMix — verification of the canvas transform engine

Shallow embedding of the interactive canvas core of the visionMix
repository (an in-browser visual canvas editor):

* `src/hooks/useCanvasHistory.ts` (delivered unnamed as
  `src/unnamed/part_000`): the bounded undo/redo history hook;
* `src/App.tsx`: layer store, drag/resize interaction state machine,
  reorder / remove / add-layer operations, project loading;
* `src/utils/projectManager.ts`: `.vmix` project file loading.

JavaScript numbers are embedded as `ℚ`: every arithmetic operation the
embedded code performs (+, -, *, /, min, max) is exact on the values the
claims quantify over, so rationals are a faithful model away from float
rounding.  The one genuinely irrational operation, `Math.sqrt` in the
radial-distance computation of the resize gesture, is handled by
parameterizing the handlers on the computed distance (see
`handleCanvasPointerMove` below).
-/

namespace VisionMix

/-- Embeds `CanvasLayer` from `src/types.ts`.  `url` holds the Base64
image reference; all numeric fields are JS numbers, embedded as `ℚ`. -/
structure CanvasLayer where
  id : String
  url : String
  x : ℚ
  y : ℚ
  scale : ℚ
  rotation : ℚ
  zIndex : ℚ
  aspectRatio : ℚ
  originalWidth : ℚ
  originalHeight : ℚ
deriving DecidableEq

/-- `const CANVAS_SIZE = 600` (src/App.tsx): logical working resolution. -/
def CANVAS_SIZE : ℚ := 600

/-- `const MIN_VISIBLE_PX = 40` (src/App.tsx): minimum visible pixels. -/
def MIN_VISIBLE_PX : ℚ := 40

/-- `const HISTORY_LIMIT = 15` (src/hooks/useCanvasHistory.ts). -/
def HISTORY_LIMIT : ℕ := 15

/-- The two `useState` cells of `useCanvasHistory`
(src/hooks/useCanvasHistory.ts): `history` is the past stack and
`redoStack` the future stack, both lists of full layer-set snapshots;
the JS arrays push at the end, embedded as appending on the right. -/
structure HistoryState where
  history : List (List CanvasLayer)
  redoStack : List (List CanvasLayer)
deriving DecidableEq

/-- The initial state of the hook: both stacks empty. -/
def initialHistory : HistoryState := ⟨[], []⟩

/-- Embeds `recordState` (src/hooks/useCanvasHistory.ts):
append the snapshot, drop the oldest entry (`Array.shift`, i.e. `tail`)
when `HISTORY_LIMIT` is exceeded, and clear the redo stack. -/
def recordState (s : HistoryState) (layers : List CanvasLayer) : HistoryState :=
  let newHistory := s.history ++ [layers]
  { history := if HISTORY_LIMIT < newHistory.length then newHistory.tail else newHistory,
    redoStack := [] }

/-- Embeds `undo` (src/hooks/useCanvasHistory.ts): on an empty past
stack return `null` and leave the state alone; otherwise pop the most
recent past entry (`history[history.length - 1]`, i.e. `getLast?`),
push `currentLayers` onto the redo stack, and return the popped entry.
The returned pair is (returned value, state after the handler). -/
def undo (s : HistoryState) (currentLayers : List CanvasLayer) :
    Option (List CanvasLayer) × HistoryState :=
  match s.history.getLast? with
  | none => (none, s)
  | some previous =>
      (some previous,
       { history := s.history.dropLast,
         redoStack := s.redoStack ++ [currentLayers] })

/-- Embeds `redo` (src/hooks/useCanvasHistory.ts), symmetric to `undo`. -/
def redo (s : HistoryState) (currentLayers : List CanvasLayer) :
    Option (List CanvasLayer) × HistoryState :=
  match s.redoStack.getLast? with
  | none => (none, s)
  | some next =>
      (some next,
       { history := s.history ++ [currentLayers],
         redoStack := s.redoStack.dropLast })

/-- A sequence of `recordState` calls, oldest first. -/
def recordAll (s : HistoryState) (xs : List (List CanvasLayer)) : HistoryState :=
  xs.foldl recordState s

/-! ## Canvas interaction (src/App.tsx)

JS arrays are compared by reference in `handleCanvasPointerUp`
(`initialLayers !== layers`).  Every state update in the embedded
handlers goes through React's `setLayers` with a callback that builds a
fresh array (`map` / `filter` / spread), so two layer arrays held by the
component are the same reference exactly when no `setLayers` call
happened between the two reads.  The embedding makes this observable
with `layersVersion`, a counter incremented at every `setLayers` call:
reference equality of a stored array with the live one is equality of
the stored version with the live version. -/

/-- `activeOperation` (src/App.tsx): `'none' | 'drag' | 'resize'`. -/
inductive Op where
  | idle
  | drag
  | resize
deriving DecidableEq

/-- `interactionStartRef.current` (src/App.tsx).  `initialLayers` is the
pre-session layer array; `initialVersion` models its identity as a JS
array reference (see the section comment). -/
structure InteractionStart where
  startX : ℚ
  startY : ℚ
  initialX : ℚ
  initialY : ℚ
  initialScale : ℚ
  initialDistance : ℚ
  initialLayers : List CanvasLayer
  initialVersion : ℕ
deriving DecidableEq

/-- The canvas-related React state of the `App` component
(src/App.tsx): the layer array, the selection, the history hook's
state, the active operation, and the interaction-start ref.
`layersVersion` models the identity of the `layers` array reference. -/
structure AppState where
  layers : List CanvasLayer
  selectedLayerId : Option String
  hist : HistoryState
  activeOperation : Op
  interactionStart : InteractionStart
  layersVersion : ℕ
deriving DecidableEq

/-- A pointer-move event as consumed by `handleCanvasPointerMove`
(src/App.tsx).  `clientX`/`clientY` are the screen coordinates used by
the drag branch.  The resize branch computes
`currentDistance = Math.sqrt(dx*dx + dy*dy)`, the Euclidean distance
from the selected layer's top-left anchor to the pointer's canvas
coordinates; that square root is irrational in general, so the
embedding carries the computed radial distance on the event itself and
the claims quantify over it directly. -/
structure PointerMoveEvent where
  clientX : ℚ
  clientY : ℚ
  currentDistance : ℚ
deriving DecidableEq

/-- The drag branch of `handleCanvasPointerMove` (src/App.tsx, the
`setLayers` callback): move the selected layer by the screen delta from
the session start, clamping `x` into
`[MIN_VISIBLE_PX - w, CANVAS_SIZE - MIN_VISIBLE_PX]` and `y` into
`[MIN_VISIBLE_PX - h, CANVAS_SIZE - MIN_VISIBLE_PX]`, where `w`/`h` is
the layer's rendered footprint. -/
def dragMove (layers : List CanvasLayer) (selectedLayerId : String)
    (startX startY initialX initialY clientX clientY : ℚ) : List CanvasLayer :=
  let dx := clientX - startX
  let dy := clientY - startY
  layers.map fun layer =>
    if layer.id = selectedLayerId then
      let currentWidth := layer.originalWidth * layer.scale
      let currentHeight := layer.originalHeight * layer.scale
      let maxX := CANVAS_SIZE - MIN_VISIBLE_PX
      let minX := MIN_VISIBLE_PX - currentWidth
      let newX := max minX (min (initialX + dx) maxX)
      let maxY := CANVAS_SIZE - MIN_VISIBLE_PX
      let minY := MIN_VISIBLE_PX - currentHeight
      let newY := max minY (min (initialY + dy) maxY)
      { layer with x := newX, y := newY }
    else layer

/-- The resize branch of `handleCanvasPointerMove` (src/App.tsx): if no
layer matches the selection, return early; otherwise, when the session's
initial radial distance is positive, set the selected layer's scale to
`max 0.1 (initialScale * (currentDistance / initialDistance))`; when it
is not (pointer-down exactly on the anchor), do nothing. -/
def resizeMove (layers : List CanvasLayer) (selectedLayerId : String)
    (initialScale initialDistance currentDistance : ℚ) : List CanvasLayer :=
  match layers.find? (fun l => l.id == selectedLayerId) with
  | none => layers
  | some _ =>
      if 0 < initialDistance then
        let newScale := initialScale * (currentDistance / initialDistance)
        let safeScale := max (1/10) newScale
        layers.map fun layer =>
          if layer.id = selectedLayerId then { layer with scale := safeScale }
          else layer
      else layers

/-- Embeds `handleCanvasPointerMove` (src/App.tsx).  Dispatches on the
selection guard and `activeOperation`; a branch that calls `setLayers`
replaces the layer array (bumping `layersVersion`), any other path
leaves the state untouched. -/
def handleCanvasPointerMove (s : AppState) (e : PointerMoveEvent) : AppState :=
  match s.selectedLayerId with
  | none => s
  | some sel =>
      match s.activeOperation with
      | Op.drag =>
          { s with
            layers := dragMove s.layers sel s.interactionStart.startX
              s.interactionStart.startY s.interactionStart.initialX
              s.interactionStart.initialY e.clientX e.clientY,
            layersVersion := s.layersVersion + 1 }
      | Op.resize =>
          match s.layers.find? (fun l => l.id == sel) with
          | none => s
          | some _ =>
              if 0 < s.interactionStart.initialDistance then
                { s with
                  layers := resizeMove s.layers sel
                    s.interactionStart.initialScale
                    s.interactionStart.initialDistance e.currentDistance,
                  layersVersion := s.layersVersion + 1 }
              else s
      | Op.idle => s

/-- Embeds `handleLayerPointerDown` (src/App.tsx): select the layer,
enter the drag state, and capture the session snapshot — the starting
screen coordinates, the layer's position and scale, a zero initial
distance, and the live layer array (its reference modeled by the
current `layersVersion`). -/
def handleLayerPointerDown (s : AppState) (clientX clientY : ℚ)
    (layer : CanvasLayer) : AppState :=
  { s with
    selectedLayerId := some layer.id,
    activeOperation := Op.drag,
    interactionStart :=
      { startX := clientX, startY := clientY,
        initialX := layer.x, initialY := layer.y,
        initialScale := layer.scale, initialDistance := 0,
        initialLayers := s.layers, initialVersion := s.layersVersion } }

/-- Embeds `handleResizePointerDown` (src/App.tsx): select the layer,
enter the resize state, and capture the session snapshot.  `dist` is
the Euclidean distance from the layer's top-left anchor to the
pointer-down canvas coordinates (`Math.sqrt(dx*dx + dy*dy)`),
carried as a parameter for the reason given on `PointerMoveEvent`. -/
def handleResizePointerDown (s : AppState) (clientX clientY : ℚ)
    (layer : CanvasLayer) (dist : ℚ) : AppState :=
  { s with
    selectedLayerId := some layer.id,
    activeOperation := Op.resize,
    interactionStart :=
      { startX := clientX, startY := clientY,
        initialX := layer.x, initialY := layer.y,
        initialScale := layer.scale, initialDistance := dist,
        initialLayers := s.layers, initialVersion := s.layersVersion } }

/-- The two ways an interaction session starts: pointer-down on a layer
body (drag) or on its resize handle (resize). -/
inductive SessionStartEvent where
  | layerDown (clientX clientY : ℚ) (layer : CanvasLayer)
  | resizeDown (clientX clientY : ℚ) (layer : CanvasLayer) (dist : ℚ)

/-- Dispatch a session-start event to its handler. -/
def startSession (s : AppState) : SessionStartEvent → AppState
  | SessionStartEvent.layerDown cx cy layer => handleLayerPointerDown s cx cy layer
  | SessionStartEvent.resizeDown cx cy layer dist =>
      handleResizePointerDown s cx cy layer dist

/-- Embeds `handleCanvasPointerUp` (src/App.tsx), also installed as the
`onPointerLeave` handler: if a session is active and the live layer
array is not the array captured at session start
(`initialLayers !== layers`, reference comparison — versions differ),
record the pre-session copy; then return to idle. -/
def handleCanvasPointerUp (s : AppState) : AppState :=
  let s' :=
    if s.activeOperation ≠ Op.idle then
      if s.interactionStart.initialVersion ≠ s.layersVersion then
        { s with hist := recordState s.hist s.interactionStart.initialLayers }
      else s
    else s
  { s' with activeOperation := Op.idle }

/-! ## Layer store operations (src/App.tsx) -/

instance : Inhabited CanvasLayer :=
  ⟨{ id := "", url := "", x := 0, y := 0, scale := 1, rotation := 0,
     zIndex := 0, aspectRatio := 1, originalWidth := 0, originalHeight := 0 }⟩

/-- The `setLayers` callback of `removeLayer` (src/App.tsx):
`prev.filter(l => l.id !== id)`.  No z-index reassignment happens. -/
def removeLayer (layers : List CanvasLayer) (id : String) : List CanvasLayer :=
  layers.filter fun l => !(l.id == id)

/-- The `'up' | 'down'` direction argument of `reorderLayer`. -/
inductive Direction where
  | up
  | down
deriving DecidableEq

/-- The `setLayers` callback of `reorderLayer` (src/App.tsx): find the
layer's index (unknown id: return the array unchanged), swap it with the
neighbor above (`up`, unless already last) or below (`down`, unless
already first), then reassign every z-index to `idx + 1` following the
final array order. -/
def reorderLayer (layers : List CanvasLayer) (id : String)
    (direction : Direction) : List CanvasLayer :=
  match layers.findIdx? (fun l => l.id == id) with
  | none => layers
  | some index =>
      let newLayers :=
        if direction = Direction.up ∧ index < layers.length - 1 then
          (layers.set index (layers.getD (index + 1) default)).set (index + 1)
            (layers.getD index default)
        else if direction = Direction.down ∧ 0 < index then
          (layers.set index (layers.getD (index - 1) default)).set (index - 1)
            (layers.getD index default)
        else layers
      newLayers.mapIdx fun idx l => { l with zIndex := (idx : ℚ) + 1 }

/-- The z-index invariant claimed by the spec: the layer at array index
`i` carries `zIndex = i + 1`, a dense `1..N` sequence in array order. -/
def DenseZ (layers : List CanvasLayer) : Prop :=
  ∀ i (h : i < layers.length), (layers.get ⟨i, h⟩).zIndex = (i : ℚ) + 1

/-- The layer-append step of `handleFileChange` (src/App.tsx), run once
an added image has loaded: `width`/`height` are `img.width`/`img.height`,
and `rx`/`ry` are the two `Math.random()` draws (values in `[0,1)`)
feeding the positional jitter `(r - 0.5) * 40`.  Scale fits the larger
natural dimension into `maxDim = 250`, capped at 1; the layer is centered
on the logical canvas, jittered, given the next z-index, and appended. -/
def addLayer (prev : List CanvasLayer) (newId url : String)
    (width height rx ry : ℚ) : List CanvasLayer :=
  let maxDim : ℚ := 250
  let scale := min 1 (maxDim / max width height)
  let jitterX := (rx - 1/2) * 40
  let jitterY := (ry - 1/2) * 40
  prev ++
    [{ id := newId, url := url,
       x := CANVAS_SIZE / 2 - (width * scale) / 2 + jitterX,
       y := CANVAS_SIZE / 2 - (height * scale) / 2 + jitterY,
       scale := scale, rotation := 0,
       zIndex := (prev.length : ℚ) + 1,
       aspectRatio := width / height,
       originalWidth := width, originalHeight := height }]

/-- The per-input-pair frame property of a resize move (claim C10): the
output layer keeps every field of the input layer except possibly
`scale`, and an unselected layer is kept entirely unchanged. -/
def UnchangedExceptScale (sel : String) (inp outp : CanvasLayer) : Prop :=
  outp.id = inp.id ∧ outp.url = inp.url ∧ outp.x = inp.x ∧ outp.y = inp.y ∧
  outp.rotation = inp.rotation ∧ outp.zIndex = inp.zIndex ∧
  outp.aspectRatio = inp.aspectRatio ∧
  outp.originalWidth = inp.originalWidth ∧
  outp.originalHeight = inp.originalHeight ∧
  (inp.id ≠ sel → outp = inp)

/-! ## Project loading (src/utils/projectManager.ts, src/App.tsx)

The values `JSON.parse` can produce, and the member access, truthiness
test and `Array.isArray` test `loadProject` performs on them. -/

/-- A JavaScript value as produced by `JSON.parse`, plus `undefined`
(the result of accessing an absent property).  Numbers are embedded as
`ℚ`. -/
inductive JsValue where
  | undef
  | nullV
  | boolV (b : Bool)
  | numV (q : ℚ)
  | strV (s : String)
  | arrV (elems : List JsValue)
  | objV (fields : List (String × JsValue))

/-- Object member lookup: the value of the first field named `key`, or
`undefined` when no such field exists. -/
def jsMember : List (String × JsValue) → String → JsValue
  | [], _ => JsValue.undef
  | (k, v) :: rest, key => if k = key then v else jsMember rest key

/-- The member access `json.layers` inside the `try` of `loadProject`
(src/utils/projectManager.ts).  On `null` (or `undefined`) this throws a
`TypeError`, which the surrounding `try/catch` converts into the
rejection `"Failed to parse project file"`; on any other non-object it
yields `undefined`; on an object it looks the field up. -/
def getProp : JsValue → String → Except String JsValue
  | JsValue.undef, _ => Except.error "Failed to parse project file"
  | JsValue.nullV, _ => Except.error "Failed to parse project file"
  | JsValue.objV fields, key => Except.ok (jsMember fields key)
  | _, _ => Except.ok JsValue.undef

/-- JavaScript truthiness of a parsed value (`NaN` does not arise in
this rational embedding). -/
def truthy : JsValue → Bool
  | JsValue.undef => false
  | JsValue.nullV => false
  | JsValue.boolV b => b
  | JsValue.numV q => q != 0
  | JsValue.strV s => s != ""
  | JsValue.arrV _ => true
  | JsValue.objV _ => true

/-- `Array.isArray`. -/
def isArray : JsValue → Bool
  | JsValue.arrV _ => true
  | _ => false

/-- The element list of an array value. -/
def elements : JsValue → List JsValue
  | JsValue.arrV xs => xs
  | _ => []

/-- Embeds the validation core of `loadProject`
(src/utils/projectManager.ts), applied to the already-parsed JSON value:
`if (json.layers && Array.isArray(json.layers)) resolve(json.layers)
else reject(new Error("Invalid .vmix project file structure"))`. -/
def loadProject (json : JsValue) : Except String (List JsValue) :=
  match getProp json "layers" with
  | Except.error e => Except.error e
  | Except.ok v =>
      if truthy v && isArray v then Except.ok (elements v)
      else Except.error "Invalid .vmix project file structure"

/-- Modelled from the spec: "an array of layer-shaped records" — a
record is layer-shaped when it is an object carrying every field of the
spec's `Layer` data model.  This predicate appears nowhere in the code
(`loadProject` checks only `Array.isArray`); it is stated to compare the
claim's wording against the implementation. -/
def specLayerShaped : JsValue → Bool
  | JsValue.objV fields =>
      ["id", "url", "x", "y", "scale", "rotation", "zIndex",
       "aspectRatio", "originalWidth", "originalHeight"].all fun k =>
        match jsMember fields k with
        | JsValue.undef => false
        | _ => true
  | _ => false

/-- Embeds `handleLoadProject` (src/App.tsx): record the current layers
(`recordState(layers)` — the pre-load snapshot), then on load success
adopt the parsed records wholesale as the new layer array (JS performs
no conversion; `decode` stands for that untyped adoption) and select the
last loaded layer; on failure only surface the error, leaving the layer
array untouched. -/
def handleLoadProject (s : AppState) (json : JsValue)
    (decode : List JsValue → List CanvasLayer) : AppState :=
  let s1 := { s with hist := recordState s.hist s.layers }
  match loadProject json with
  | Except.ok loaded =>
      let loadedLayers := decode loaded
      { s1 with
        layers := loadedLayers,
        layersVersion := s1.layersVersion + 1,
        selectedLayerId :=
          match loadedLayers.getLast? with
          | some l => some l.id
          | none => s1.selectedLayerId }
  | Except.error _ => s1

/-! ## Concrete fixtures for witnesses and counterexamples -/

/-- A 100×100 layer at (100,100), scale 1, z-index 1. -/
def layerA : CanvasLayer :=
  { id := "a", url := "imgA", x := 100, y := 100, scale := 1, rotation := 0,
    zIndex := 1, aspectRatio := 1, originalWidth := 100, originalHeight := 100 }

/-- A 50×50 layer at (0,0), scale 1, z-index 2. -/
def layerB : CanvasLayer :=
  { id := "b", url := "imgB", x := 0, y := 0, scale := 1, rotation := 0,
    zIndex := 2, aspectRatio := 1, originalWidth := 50, originalHeight := 50 }

/-- A quiescent app state holding the single layer `layerA`. -/
def appState0 : AppState :=
  { layers := [layerA], selectedLayerId := none, hist := initialHistory,
    activeOperation := Op.idle,
    interactionStart :=
      { startX := 0, startY := 0, initialX := 0, initialY := 0,
        initialScale := 1, initialDistance := 0, initialLayers := [],
        initialVersion := 0 },
    layersVersion := 0 }

/-- A parsed project file whose `layers` member is an array of plain
numbers — not layer-shaped records. -/
def jsonNumberLayers : JsValue :=
  JsValue.objV [("layers", JsValue.arrV [JsValue.numV 1])]

/-- A parsed project file missing the `layers` key. -/
def jsonMissingLayers : JsValue :=
  JsValue.objV [("version", JsValue.strV "1.0")]

/-- `layerA` after the spec's drag scenario: from `(100,100)` by screen
delta `(-500,-500)` with footprint `100×100`, clamped to `(-60,-60)`. -/
def draggedA : CanvasLayer := { layerA with x := -60, y := -60 }

/-- `layerA` after the spec's resize scenario: start distance 50, start
scale 1, pointer moved to distance 25 — scale becomes `1/2`. -/
def resizedA : CanvasLayer := { layerA with scale := 1/2 }

/-! ## Theorems: the bounded history manager -/

lemma recordState_history_le (s : HistoryState) (a : List CanvasLayer)
    (hs : s.history.length ≤ HISTORY_LIMIT) :
    (recordState s a).history.length ≤ HISTORY_LIMIT := by
  unfold recordState
  dsimp only
  split
  · rename_i hgt
    simp only [List.length_tail, List.length_append, List.length_singleton, List.length_cons, List.length_nil] at *
    omega
  · rename_i hle
    simp only [List.length_append, List.length_singleton, List.length_cons, List.length_nil, not_lt] at *
    omega

lemma recordAll_history (xs : List (List CanvasLayer)) :
    ∀ s : HistoryState, s.history.length ≤ HISTORY_LIMIT →
      (recordAll s xs).history
        = (s.history ++ xs).drop (s.history.length + xs.length - HISTORY_LIMIT) := by
  induction xs with
  | nil =>
      intro s hs
      have h0 : s.history.length - HISTORY_LIMIT = 0 := by omega
      simp [recordAll, h0]
  | cons a t ih =>
      intro s hs
      have hstep : recordAll s (a :: t) = recordAll (recordState s a) t := rfl
      rw [hstep, ih (recordState s a) (recordState_history_le s a hs)]
      by_cases hlen : s.history.length + 1 ≤ HISTORY_LIMIT
      · have hc : ¬ (HISTORY_LIMIT < (s.history ++ [a]).length) := by
          simp only [List.length_append, List.length_singleton, List.length_cons, List.length_nil, not_lt]
          omega
        have hbranch : (recordState s a).history = s.history ++ [a] := by
          unfold recordState
          dsimp only
          rw [if_neg hc]
        rw [hbranch]
        have harith : (s.history ++ [a]).length + t.length - HISTORY_LIMIT
            = s.history.length + (a :: t).length - HISTORY_LIMIT := by
          simp only [List.length_append, List.length_singleton, List.length_cons, List.length_nil]
          omega
        rw [harith, List.append_assoc]
        simp
      · have hfull : s.history.length = HISTORY_LIMIT := by omega
        have hc : HISTORY_LIMIT < (s.history ++ [a]).length := by
          simp only [List.length_append, List.length_singleton, List.length_cons, List.length_nil]
          omega
        have hbranch : (recordState s a).history = (s.history ++ [a]).tail := by
          unfold recordState
          dsimp only
          rw [if_pos hc]
        cases hh : s.history with
        | nil =>
            rw [hh] at hfull
            simp [HISTORY_LIMIT] at hfull
        | cons b rest =>
            rw [hh] at hbranch
            simp at hbranch
            rw [hbranch]
            have hrest : rest.length + 1 = HISTORY_LIMIT := by
              rw [hh] at hfull; simpa using hfull
            have h1 : (rest ++ [a]).length + t.length - HISTORY_LIMIT = t.length := by
              simp only [List.length_append, List.length_singleton, List.length_cons, List.length_nil]
              omega
            have h2 : (b :: rest).length + (a :: t).length - HISTORY_LIMIT
                = t.length + 1 := by
              simp only [List.length_cons]
              omega
            rw [h1, h2]
            simp [List.append_assoc]

/-- **C1.** For every sequence of `recordState` calls starting from the
hook's initial state — in particular any sequence exceeding the capacity
`HISTORY_LIMIT = 15` — the past stack never exceeds 15 entries and is
exactly the 15 most recent snapshots in recording order (the oldest
entries are silently dropped); `recordState` is total, so no error is
ever raised. -/
theorem recordState_capacity (xs : List (List CanvasLayer)) :
    (recordAll initialHistory xs).history.length ≤ HISTORY_LIMIT ∧
    (recordAll initialHistory xs).history = xs.drop (xs.length - HISTORY_LIMIT) := by
  have h := recordAll_history xs initialHistory (by simp [initialHistory, HISTORY_LIMIT])
  have hinit : initialHistory.history = ([] : List (List CanvasLayer)) := rfl
  rw [hinit] at h
  simp at h
  refine ⟨?_, h⟩
  rw [h]
  simp
  omega

/-- **C3.** Every `recordState` call leaves the redo stack empty,
whatever the prior content of the redo stack was. -/
theorem recordState_clears_redo (s : HistoryState) (layers : List CanvasLayer) :
    (recordState s layers).redoStack = [] := rfl

/-- **C2.** With no intervening `recordState`: from any history state
whose past stack is non-empty, `undo` applied to the current snapshot
`S` returns some snapshot `P`, and `redo` run in the resulting state
with `P` as its current snapshot returns exactly `S` — and even restores
the full history state; symmetrically for `redo` followed by `undo`
when the future stack is non-empty. -/
theorem undo_redo_roundtrip (s : HistoryState) (S : List CanvasLayer) :
    (s.history ≠ [] →
      ∃ P, (undo s S).1 = some P ∧ redo (undo s S).2 P = (some S, s)) ∧
    (s.redoStack ≠ [] →
      ∃ N, (redo s S).1 = some N ∧ undo (redo s S).2 N = (some S, s)) := by
  obtain ⟨h, r⟩ := s
  constructor
  · intro hne
    have hne' : h ≠ [] := hne
    have hget : h.getLast? = some (h.getLast hne') :=
      List.getLast?_eq_getLast h hne'
    refine ⟨h.getLast hne', ?_, ?_⟩
    · simp [undo, hget]
    · simp [undo, hget, redo, List.getLast?_concat, List.dropLast_concat,
        List.dropLast_append_getLast hne']
  · intro hne
    have hne' : r ≠ [] := hne
    have hget : r.getLast? = some (r.getLast hne') :=
      List.getLast?_eq_getLast r hne'
    refine ⟨r.getLast hne', ?_, ?_⟩
    · simp [redo, hget]
    · simp [redo, hget, undo, List.getLast?_concat, List.dropLast_concat,
        List.dropLast_append_getLast hne']

/-- Witness for C2 at a concrete history state: one past snapshot and
one future snapshot, current snapshot a one-layer set. -/
theorem undo_redo_roundtrip_witness :
    (∃ P, (undo ⟨[[]], [[]]⟩ [] ).1 = some P ∧
      redo (undo ⟨[[]], [[]]⟩ []).2 P = (some [], ⟨[[]], [[]]⟩)) ∧
    (∃ N, (redo ⟨[[]], [[]]⟩ []).1 = some N ∧
      undo (redo ⟨[[]], [[]]⟩ []).2 N = (some [], ⟨[[]], [[]]⟩)) :=
  ⟨(undo_redo_roundtrip ⟨[[]], [[]]⟩ []).1 (by decide),
   (undo_redo_roundtrip ⟨[[]], [[]]⟩ []).2 (by decide)⟩

/-! ## Theorems: drag clamping and resize scaling -/

/-- **C4.** After any drag pointer-move with `M = MIN_VISIBLE_PX = 40`
and `CANVAS_SIZE = 600`: writing `w`/`h` for the dragged layer's
rendered footprint (the footprint of a real layer is nonnegative, taken
as a hypothesis), its `x` lands in `[M - w, CANVAS_SIZE - M]` and its
`y` in `[M - h, CANVAS_SIZE - M]`; hence `M ≤ x + w`,
`x ≤ CANVAS_SIZE - M`, and symmetrically for `y`. -/
theorem drag_clamps_position (layers : List CanvasLayer) (sel : String)
    (startX startY initialX initialY clientX clientY : ℚ) :
    ∀ l' ∈ dragMove layers sel startX startY initialX initialY clientX clientY,
      l'.id = sel →
      0 ≤ l'.originalWidth * l'.scale → 0 ≤ l'.originalHeight * l'.scale →
      (MIN_VISIBLE_PX - l'.originalWidth * l'.scale ≤ l'.x
        ∧ l'.x ≤ CANVAS_SIZE - MIN_VISIBLE_PX
        ∧ MIN_VISIBLE_PX ≤ l'.x + l'.originalWidth * l'.scale)
      ∧ (MIN_VISIBLE_PX - l'.originalHeight * l'.scale ≤ l'.y
        ∧ l'.y ≤ CANVAS_SIZE - MIN_VISIBLE_PX
        ∧ MIN_VISIBLE_PX ≤ l'.y + l'.originalHeight * l'.scale) := by
  intro l' hmem hid hw hh
  simp only [dragMove, List.mem_map] at hmem
  obtain ⟨l, hl, hfl⟩ := hmem
  by_cases hsel : l.id = sel
  · rw [if_pos hsel] at hfl
    subst hfl
    dsimp only at hw hh ⊢
    have hx1 : MIN_VISIBLE_PX - l.originalWidth * l.scale
        ≤ max (MIN_VISIBLE_PX - l.originalWidth * l.scale)
            (min (initialX + (clientX - startX)) (CANVAS_SIZE - MIN_VISIBLE_PX)) :=
      le_max_left _ _
    have hy1 : MIN_VISIBLE_PX - l.originalHeight * l.scale
        ≤ max (MIN_VISIBLE_PX - l.originalHeight * l.scale)
            (min (initialY + (clientY - startY)) (CANVAS_SIZE - MIN_VISIBLE_PX)) :=
      le_max_left _ _
    have hx2 : max (MIN_VISIBLE_PX - l.originalWidth * l.scale)
        (min (initialX + (clientX - startX)) (CANVAS_SIZE - MIN_VISIBLE_PX))
        ≤ CANVAS_SIZE - MIN_VISIBLE_PX := by
      apply max_le
      · simp only [MIN_VISIBLE_PX, CANVAS_SIZE] at hw ⊢
        linarith
      · exact min_le_right _ _
    have hy2 : max (MIN_VISIBLE_PX - l.originalHeight * l.scale)
        (min (initialY + (clientY - startY)) (CANVAS_SIZE - MIN_VISIBLE_PX))
        ≤ CANVAS_SIZE - MIN_VISIBLE_PX := by
      apply max_le
      · simp only [MIN_VISIBLE_PX, CANVAS_SIZE] at hh ⊢
        linarith
      · exact min_le_right _ _
    exact ⟨⟨hx1, hx2, by linarith⟩, ⟨hy1, hy2, by linarith⟩⟩
  · rw [if_neg hsel] at hfl
    subst hfl
    exact absurd hid hsel

/-- Witness for C4 at the spec's drag scenario: `layerA` at `(100,100)`
with footprint `100×100` dragged by screen delta `(-500,-500)` — the
result `draggedA` sits at the clamped `(-60,-60)` and satisfies every
bound. -/
theorem drag_clamps_position_witness :
    draggedA ∈ dragMove [layerA] "a" 0 0 100 100 (-500) (-500)
    ∧ draggedA.x = -60 ∧ draggedA.y = -60
    ∧ ((MIN_VISIBLE_PX - draggedA.originalWidth * draggedA.scale ≤ draggedA.x
        ∧ draggedA.x ≤ CANVAS_SIZE - MIN_VISIBLE_PX
        ∧ MIN_VISIBLE_PX ≤ draggedA.x + draggedA.originalWidth * draggedA.scale)
      ∧ (MIN_VISIBLE_PX - draggedA.originalHeight * draggedA.scale ≤ draggedA.y
        ∧ draggedA.y ≤ CANVAS_SIZE - MIN_VISIBLE_PX
        ∧ MIN_VISIBLE_PX ≤ draggedA.y + draggedA.originalHeight * draggedA.scale)) := by
  have hres : dragMove [layerA] "a" 0 0 100 100 (-500) (-500) = [draggedA] := by
    norm_num [dragMove, layerA, draggedA, CANVAS_SIZE, MIN_VISIBLE_PX,
      max_def, min_def]
  have hmem : draggedA ∈ dragMove [layerA] "a" 0 0 100 100 (-500) (-500) := by
    rw [hres]
    exact List.mem_singleton_self _
  exact ⟨hmem, rfl, rfl,
    drag_clamps_position [layerA] "a" 0 0 100 100 (-500) (-500) draggedA hmem
      rfl (by norm_num [draggedA, layerA]) (by norm_num [draggedA, layerA])⟩

/-- **C5.** For a resize session with positive starting radial distance
`initialDistance`, every pointer-move sets the selected layer's scale to
exactly `max 0.1 (initialScale * (currentDistance / initialDistance))`;
for a session whose starting distance is zero, every pointer-move leaves
the layer array untouched. -/
theorem resize_scale_formula (layers : List CanvasLayer) (sel : String)
    (initialScale initialDistance currentDistance : ℚ) :
    (0 < initialDistance →
      ∀ l' ∈ resizeMove layers sel initialScale initialDistance currentDistance,
        l'.id = sel →
        l'.scale = max (1/10) (initialScale * (currentDistance / initialDistance)))
    ∧ (initialDistance = 0 →
        resizeMove layers sel initialScale initialDistance currentDistance
          = layers) := by
  constructor
  · intro hd l' hmem hid
    unfold resizeMove at hmem
    cases hfind : layers.find? (fun l => l.id == sel) with
    | none =>
        rw [hfind] at hmem
        have := List.find?_eq_none.mp hfind l' hmem
        simp [hid] at this
    | some l0 =>
        rw [hfind, if_pos hd] at hmem
        simp only [List.mem_map] at hmem
        obtain ⟨l, hl, hfl⟩ := hmem
        by_cases hsel : l.id = sel
        · rw [if_pos hsel] at hfl
          subst hfl
          rfl
        · rw [if_neg hsel] at hfl
          subst hfl
          exact absurd hid hsel
  · intro hd
    unfold resizeMove
    cases layers.find? (fun l => l.id == sel) <;> simp [hd]

/-- Witness for C5 at the spec's resize scenario: start distance 50,
start scale 1, current distance 25 — the selected layer's scale becomes
`max 0.1 (1 * (25/50)) = 1/2`; and with a zero start distance the layer
array is untouched. -/
theorem resize_scale_formula_witness :
    (resizedA.scale = max (1/10) (1 * ((25 : ℚ) / 50)) ∧ resizedA.scale = 1/2)
    ∧ resizeMove [layerA] "a" 1 0 25 = [layerA] := by
  have hres : resizeMove [layerA] "a" 1 50 25 = [resizedA] := by
    norm_num [resizeMove, List.find?, layerA, resizedA, max_def]
  have hmem : resizedA ∈ resizeMove [layerA] "a" 1 50 25 := by
    rw [hres]
    exact List.mem_singleton_self _
  exact ⟨⟨(resize_scale_formula [layerA] "a" 1 50 25).1 (by norm_num) resizedA
      hmem rfl, rfl⟩,
    (resize_scale_formula [layerA] "a" 1 0 25).2 rfl⟩

/-- **C10.** A resize pointer-move relates input and output layer arrays
pointwise: every output layer keeps the `id`, `url`, position, rotation,
z-index, aspect ratio and intrinsic dimensions of the corresponding
input layer (so only `scale` can change), and a layer that is not the
selected one is entirely unchanged. -/
theorem resize_move_frame (layers : List CanvasLayer) (sel : String)
    (initialScale initialDistance currentDistance : ℚ) :
    List.Forall₂ (UnchangedExceptScale sel) layers
      (resizeMove layers sel initialScale initialDistance currentDistance) := by
  have hrefl : ∀ x : CanvasLayer, UnchangedExceptScale sel x x :=
    fun x => ⟨rfl, rfl, rfl, rfl, rfl, rfl, rfl, rfl, rfl, fun _ => rfl⟩
  unfold resizeMove
  cases layers.find? (fun l => l.id == sel) with
  | none => exact List.forall₂_same.mpr fun x _ => hrefl x
  | some l0 =>
      by_cases hd : 0 < initialDistance
      · rw [if_pos hd]
        rw [List.forall₂_map_right_iff]
        apply List.forall₂_same.mpr
        intro x _
        by_cases hsel : x.id = sel
        · rw [if_pos hsel]
          exact ⟨rfl, rfl, rfl, rfl, rfl, rfl, rfl, rfl, rfl,
            fun hne => absurd hsel hne⟩
        · rw [if_neg hsel]
          exact hrefl x
      · rw [if_neg hd]
        exact List.forall₂_same.mpr fun x _ => hrefl x

/-! ## Theorems: interaction sessions and history snapshots -/

lemma move_preserves (s : AppState) (e : PointerMoveEvent) :
    (handleCanvasPointerMove s e).hist = s.hist ∧
    (handleCanvasPointerMove s e).interactionStart = s.interactionStart ∧
    (handleCanvasPointerMove s e).activeOperation = s.activeOperation ∧
    s.layersVersion ≤ (handleCanvasPointerMove s e).layersVersion ∧
    ((handleCanvasPointerMove s e).layersVersion = s.layersVersion →
      (handleCanvasPointerMove s e).layers = s.layers) := by
  unfold handleCanvasPointerMove
  split
  · exact ⟨rfl, rfl, rfl, le_refl _, fun _ => rfl⟩
  · split
    · exact ⟨rfl, rfl, rfl, Nat.le_succ _,
        fun hv => absurd hv (Nat.succ_ne_self _)⟩
    · split
      · exact ⟨rfl, rfl, rfl, le_refl _, fun _ => rfl⟩
      · split
        · exact ⟨rfl, rfl, rfl, Nat.le_succ _,
            fun hv => absurd hv (Nat.succ_ne_self _)⟩
        · exact ⟨rfl, rfl, rfl, le_refl _, fun _ => rfl⟩
    · exact ⟨rfl, rfl, rfl, le_refl _, fun _ => rfl⟩

lemma moves_preserve (moves : List PointerMoveEvent) :
    ∀ s : AppState,
      ((moves.foldl handleCanvasPointerMove s).hist = s.hist) ∧
      ((moves.foldl handleCanvasPointerMove s).interactionStart
        = s.interactionStart) ∧
      ((moves.foldl handleCanvasPointerMove s).activeOperation
        = s.activeOperation) ∧
      (s.layersVersion ≤ (moves.foldl handleCanvasPointerMove s).layersVersion) ∧
      ((moves.foldl handleCanvasPointerMove s).layersVersion = s.layersVersion →
        (moves.foldl handleCanvasPointerMove s).layers = s.layers) := by
  induction moves with
  | nil => exact fun s => ⟨rfl, rfl, rfl, le_refl _, fun _ => rfl⟩
  | cons e t ih =>
      intro s
      obtain ⟨h1h, h1i, h1o, h1v, h1l⟩ := move_preserves s e
      obtain ⟨h2h, h2i, h2o, h2v, h2l⟩ := ih (handleCanvasPointerMove s e)
      simp only [List.foldl_cons]
      refine ⟨h2h.trans h1h, h2i.trans h1i, h2o.trans h1o,
        le_trans h1v h2v, fun hv => ?_⟩
      have hv2 : (t.foldl handleCanvasPointerMove
          (handleCanvasPointerMove s e)).layersVersion
          = (handleCanvasPointerMove s e).layersVersion := by omega
      have hv1 : (handleCanvasPointerMove s e).layersVersion
          = s.layersVersion := by omega
      exact (h2l hv2).trans (h1l hv1)

lemma startSession_spec (s : AppState) (ev : SessionStartEvent) :
    (startSession s ev).hist = s.hist ∧
    (startSession s ev).layers = s.layers ∧
    (startSession s ev).layersVersion = s.layersVersion ∧
    (startSession s ev).activeOperation ≠ Op.idle ∧
    (startSession s ev).interactionStart.initialLayers = s.layers ∧
    (startSession s ev).interactionStart.initialVersion = s.layersVersion := by
  cases ev with
  | layerDown cx cy layer =>
      exact ⟨rfl, rfl, rfl, fun h => Op.noConfusion h, rfl, rfl⟩
  | resizeDown cx cy layer dist =>
      exact ⟨rfl, rfl, rfl, fun h => Op.noConfusion h, rfl, rfl⟩

/-- **C6.** A whole interaction session — pointer-down on a layer body
or resize handle, any number of pointer-moves, then pointer-up (or
pointer-leave, which runs the same handler): the pre-session copy
captured at pointer-down is the layer array live at that moment;
no move touches the history; if no move replaced the layer array
(versions equal — the JS reference comparison `initialLayers !== layers`
finds them identical) the layers are unchanged and pointer-up records
nothing; otherwise pointer-up performs exactly one `recordState`, of the
pre-session copy — one undo step for the whole gesture. -/
theorem gesture_records_single_snapshot (s0 : AppState)
    (ev : SessionStartEvent) (moves : List PointerMoveEvent) :
    (startSession s0 ev).interactionStart.initialLayers = s0.layers
    ∧ (moves.foldl handleCanvasPointerMove (startSession s0 ev)).hist = s0.hist
    ∧ ((moves.foldl handleCanvasPointerMove (startSession s0 ev)).layersVersion
          = s0.layersVersion →
        (moves.foldl handleCanvasPointerMove (startSession s0 ev)).layers
          = s0.layers)
    ∧ (handleCanvasPointerUp
        (moves.foldl handleCanvasPointerMove (startSession s0 ev))).hist
        = if (moves.foldl handleCanvasPointerMove
              (startSession s0 ev)).layersVersion = s0.layersVersion
          then s0.hist
          else recordState s0.hist s0.layers := by
  obtain ⟨hsh, hsl, hsv, hso, hsil, hsiv⟩ := startSession_spec s0 ev
  obtain ⟨hfh, hfi, hfo, hfv, hfl⟩ := moves_preserve moves (startSession s0 ev)
  refine ⟨hsil, hfh.trans hsh, fun hv => ?_, ?_⟩
  · have hv' : (moves.foldl handleCanvasPointerMove
        (startSession s0 ev)).layersVersion
        = (startSession s0 ev).layersVersion := by omega
    exact (hfl hv').trans hsl
  · have hop : (moves.foldl handleCanvasPointerMove
        (startSession s0 ev)).activeOperation ≠ Op.idle := by
      rw [hfo]; exact hso
    have hiv : (moves.foldl handleCanvasPointerMove
        (startSession s0 ev)).interactionStart.initialVersion
        = s0.layersVersion := by
      rw [hfi, hsiv]
    have hil : (moves.foldl handleCanvasPointerMove
        (startSession s0 ev)).interactionStart.initialLayers = s0.layers := by
      rw [hfi, hsil]
    unfold handleCanvasPointerUp
    rw [if_pos hop]
    by_cases hv : (moves.foldl handleCanvasPointerMove
        (startSession s0 ev)).layersVersion = s0.layersVersion
    · rw [if_neg (not_not_intro (by rw [hiv, hv])), if_pos hv]
      exact hfh.trans hsh
    · rw [if_pos (by rw [hiv]; exact fun hcontra => hv hcontra.symm),
        if_neg hv]
      dsimp only
      rw [hfh.trans hsh, hil]

/-- Witness for C6: a drag session on `appState0` with no pointer-move.
Nothing replaced the layer array, so the layers are unchanged and
pointer-up records no snapshot. -/
theorem gesture_records_single_snapshot_witness :
    (([] : List PointerMoveEvent).foldl handleCanvasPointerMove
        (startSession appState0 (SessionStartEvent.layerDown 0 0 layerA))).layers
      = appState0.layers
    ∧ (handleCanvasPointerUp (([] : List PointerMoveEvent).foldl
        handleCanvasPointerMove
        (startSession appState0 (SessionStartEvent.layerDown 0 0 layerA)))).hist
      = if (([] : List PointerMoveEvent).foldl handleCanvasPointerMove
            (startSession appState0
              (SessionStartEvent.layerDown 0 0 layerA))).layersVersion
          = appState0.layersVersion
        then appState0.hist
        else recordState appState0.hist appState0.layers :=
  ⟨(gesture_records_single_snapshot appState0
      (SessionStartEvent.layerDown 0 0 layerA) []).2.2.1 rfl,
   (gesture_records_single_snapshot appState0
      (SessionStartEvent.layerDown 0 0 layerA) []).2.2.2⟩

/-! ## Theorems: layer ordering -/

lemma denseZ_mapIdx (l : List CanvasLayer) :
    DenseZ (l.mapIdx fun idx x => { x with zIndex := (idx : ℚ) + 1 }) := by
  intro i h
  have hlen : i < l.length := by
    simpa using h
  rw [List.get_mapIdx l _ i hlen h]

/-- **C7 counterexample.** `removeLayer` is one of the program's
operations, yet it filters the array without reassigning z-indices:
removing layer `"a"` from the dense two-layer set `[layerA, layerB]`
leaves `[layerB]`, whose only layer still carries `zIndex = 2` — not a
dense `1..N` permutation. -/
theorem removeLayer_breaks_dense_zindex :
    DenseZ [layerA, layerB]
    ∧ removeLayer [layerA, layerB] "a" = [layerB]
    ∧ ¬ DenseZ (removeLayer [layerA, layerB] "a") := by
  have hrm : removeLayer [layerA, layerB] "a" = [layerB] := rfl
  refine ⟨?_, hrm, ?_⟩
  · intro i h
    simp only [List.length_cons, List.length_nil] at h
    interval_cases i
    · norm_num [layerA, List.get]
    · norm_num [layerB, List.get]
  · rw [hrm]
    intro hd
    have h2 := hd 0 (by norm_num)
    norm_num [layerB, List.get] at h2

/-- **C7 (amended).** Every reorder operation whose target id occurs in
the layer set — including the boundary no-ops at the top and bottom of
the stacking order — leaves the z-indices a dense `1..N` permutation
matching array order (`removeLayer`, by the counterexample, does not
preserve this). -/
theorem reorderLayer_dense_zindex (layers : List CanvasLayer) (id : String)
    (direction : Direction)
    (hfound : (layers.findIdx? (fun l => l.id == id)).isSome) :
    DenseZ (reorderLayer layers id direction) := by
  unfold reorderLayer
  split
  · rename_i hnone
    rw [hnone] at hfound
    simp at hfound
  · exact denseZ_mapIdx _

/-- Witness for C7 (amended): reordering `layerA` up inside
`[layerA, layerB]` yields a dense z-index sequence. -/
theorem reorderLayer_dense_zindex_witness :
    DenseZ (reorderLayer [layerA, layerB] "a" Direction.up) :=
  reorderLayer_dense_zindex [layerA, layerB] "a" Direction.up rfl

/-! ## Theorems: adding an image asset -/

/-- **C8.** Adding an image of natural size `width × height` appends one
layer whose scale is `min 1 (250 / max width height)` and whose position
is the canvas center minus half the rendered footprint plus the jitter
`(r - 1/2) * 40` on each axis independently; with the `Math.random`
draws `rx, ry ∈ [0, 1)`, that jitter is bounded by 20 logical units per
axis. -/
theorem addLayer_centered_with_jitter (prev : List CanvasLayer)
    (newId url : String) (width height rx ry : ℚ)
    (hrx0 : 0 ≤ rx) (hrx1 : rx < 1) (hry0 : 0 ≤ ry) (hry1 : ry < 1) :
    ∃ l, addLayer prev newId url width height rx ry = prev ++ [l]
      ∧ l.scale = min 1 (250 / max width height)
      ∧ l.x = CANVAS_SIZE / 2 - width * l.scale / 2 + (rx - 1/2) * 40
      ∧ l.y = CANVAS_SIZE / 2 - height * l.scale / 2 + (ry - 1/2) * 40
      ∧ |l.x - (CANVAS_SIZE / 2 - width * l.scale / 2)| ≤ 20
      ∧ |l.y - (CANVAS_SIZE / 2 - height * l.scale / 2)| ≤ 20 := by
  refine ⟨_, rfl, rfl, rfl, rfl, ?_, ?_⟩
  · dsimp only
    rw [show CANVAS_SIZE / 2 - width * min 1 (250 / max width height) / 2
          + (rx - 1/2) * 40
          - (CANVAS_SIZE / 2 - width * min 1 (250 / max width height) / 2)
        = (rx - 1/2) * 40 from by ring]
    rw [abs_le]
    constructor <;> linarith
  · dsimp only
    rw [show CANVAS_SIZE / 2 - height * min 1 (250 / max width height) / 2
          + (ry - 1/2) * 40
          - (CANVAS_SIZE / 2 - height * min 1 (250 / max width height) / 2)
        = (ry - 1/2) * 40 from by ring]
    rw [abs_le]
    constructor <;> linarith

/-- Witness for C8 at the spec's scenario: one 200×200 image added to an
empty canvas with central jitter draws `rx = ry = 1/2` — and the scale
formula indeed evaluates to 1 there. -/
theorem addLayer_centered_with_jitter_witness :
    (∃ l, addLayer [] "n" "u" 200 200 (1/2) (1/2) = [] ++ [l]
      ∧ l.scale = min 1 (250 / max (200 : ℚ) 200)
      ∧ l.x = CANVAS_SIZE / 2 - 200 * l.scale / 2 + ((1:ℚ)/2 - 1/2) * 40
      ∧ l.y = CANVAS_SIZE / 2 - 200 * l.scale / 2 + ((1:ℚ)/2 - 1/2) * 40
      ∧ |l.x - (CANVAS_SIZE / 2 - 200 * l.scale / 2)| ≤ 20
      ∧ |l.y - (CANVAS_SIZE / 2 - 200 * l.scale / 2)| ≤ 20)
    ∧ min (1 : ℚ) (250 / max (200 : ℚ) 200) = 1 :=
  ⟨addLayer_centered_with_jitter [] "n" "u" 200 200 (1/2) (1/2)
      (by norm_num) (by norm_num) (by norm_num) (by norm_num),
   by norm_num [max_def, min_def]⟩

/-! ## Theorems: project loading -/

lemma getProp_error_msg (json : JsValue) (key : String) (e : String)
    (h : getProp json key = Except.error e) :
    e = "Failed to parse project file" := by
  cases json with
  | undef => injection h with h'; exact h'.symm
  | nullV => injection h with h'; exact h'.symm
  | boolV b => exact Except.noConfusion h
  | numV q => exact Except.noConfusion h
  | strV s => exact Except.noConfusion h
  | arrV elems => exact Except.noConfusion h
  | objV fields => exact Except.noConfusion h

/-- **C9 counterexample.** The claim says loading fails exactly when
`layers` is missing or not an array of layer-shaped records; but the
code checks only `Array.isArray`: a file whose `layers` is an array of
plain numbers loads successfully even though its element is not
layer-shaped. -/
theorem loadProject_accepts_nonlayer_records :
    loadProject jsonNumberLayers = Except.ok [JsValue.numV 1]
    ∧ specLayerShaped (JsValue.numV 1) = false :=
  ⟨rfl, rfl⟩

/-- **C9 (amended).** Loading fails with the structural-validation error
exactly when the `layers` member access succeeds but yields a value that
is falsy (in particular missing, i.e. `undefined`) or not an array —
element shapes are never inspected; and on any load failure
`handleLoadProject` leaves the app state unchanged except for the
pre-load history snapshot already taken. -/
theorem loadProject_structural_error_iff :
    (∀ json : JsValue,
      loadProject json = Except.error "Invalid .vmix project file structure"
      ↔ ∃ v, getProp json "layers" = Except.ok v
          ∧ ¬(truthy v = true ∧ isArray v = true))
    ∧ (∀ (s : AppState) (json : JsValue)
        (decode : List JsValue → List CanvasLayer),
        (∃ e, loadProject json = Except.error e) →
        handleLoadProject s json decode
          = { s with hist := recordState s.hist s.layers }) := by
  constructor
  · intro json
    unfold loadProject
    cases hget : getProp json "layers" with
    | error e =>
        have he := getProp_error_msg json "layers" e hget
        subst he
        dsimp only
        constructor
        · intro hcontra
          injection hcontra with h'
          exact absurd h' (by decide)
        · rintro ⟨v, hv, -⟩
          exact Except.noConfusion hv
    | ok v =>
        dsimp only
        by_cases hb : truthy v && isArray v
        · rw [if_pos hb]
          constructor
          · intro hcontra
            exact Except.noConfusion hcontra
          · rintro ⟨v', hv', hnb⟩
            rw [Except.ok.injEq] at hv'
            subst hv'
            rw [Bool.and_eq_true] at hb
            exact absurd ⟨hb.1, hb.2⟩ hnb
        · rw [if_neg hb]
          refine ⟨fun _ => ⟨v, rfl, fun hc => ?_⟩, fun _ => rfl⟩
          exact hb (Bool.and_eq_true _ _ |>.mpr ⟨hc.1, hc.2⟩)
  · intro s json decode hfail
    obtain ⟨e, he⟩ := hfail
    simp only [handleLoadProject, he]

/-- Witness for C9 (amended): a project file missing the `layers` key is
rejected with the structural error, and loading it leaves the app state
unchanged apart from the pre-load snapshot. -/
theorem loadProject_structural_error_iff_witness :
    loadProject jsonMissingLayers
      = Except.error "Invalid .vmix project file structure"
    ∧ handleLoadProject appState0 jsonMissingLayers (fun _ => [])
      = { appState0 with hist := recordState appState0.hist appState0.layers } :=
  ⟨(loadProject_structural_error_iff.1 jsonMissingLayers).mpr
      ⟨JsValue.undef, rfl, fun h => Bool.noConfusion h.1⟩,
   loadProject_structural_error_iff.2 appState0 jsonMissingLayers (fun _ => [])
      ⟨"Invalid .vmix project file structure", rfl⟩⟩

end VisionMix
